import Mathlib

/-!
Verification of the trade-compliance engine.

This file is a shallow embedding of the compliance pipeline of the
repository: the staging projector and writer (`app/services/holdings_service.py`,
`app/services/trade_executor.py`), the rule engine
(`app/services/compliance/compliance_engine.py`, `numerator_calculator.py`,
`denominator_calculator.py`), the alert registry (`app/models/alert.py`,
`app/services/alert_service.py`), the trade validator
(`app/services/trade_validator.py`) and the orchestration in
`app/api/trades.py` / `app/services/compliance/trade_compliance.py`.

Database tables are represented as lists of rows; `Decimal` amounts are
represented exactly as rationals; SQLAlchemy `query.first()` is `List.find?`;
in-place mutation of the row found by `first()` is `updateFirst`;
`session.delete` of that row is `eraseFirstP`; `filter_by(...).delete()` is
`List.filter` with the negated key.  The most-recent-price correlated
subquery and the securities/issuers joins are abstracted as the read
functions `latestPrice` and `securities` of the database state; an `INNER
JOIN` against them drops the rows on which the function returns `none`.
-/

namespace TC

/-- app/constants.py : TradeStatus -/
inductive TradeStatus
  | submitted
  | validating
  | invalid
  | compliance
  | alert
  | cancelled
  | processed
deriving DecidableEq, Repr

/-- app/constants.py : TradeDirection -/
inductive TradeDirection
  | buy
  | sell
deriving DecidableEq, Repr

/-- app/constants.py : AlertStatus -/
inductive AlertStatus
  | pending
  | overridden
  | cancelled
deriving DecidableEq, Repr

/-- app/constants.py : AlertIf -/
inductive AlertIf
  | above
  | below
deriving DecidableEq, Repr

/-- app/constants.py : DenominatorType -/
inductive DenominatorType
  | totalAssets
  | netAssets
  | totalAssetsExCash
  | prohibit
  | sharesOutstandingFe
deriving DecidableEq, Repr

/-- app/models/fund.py : the fund row (cash is Decimal, kept exact as a rational). -/
structure Fund where
  fundId : Nat
  cash : ℚ
deriving DecidableEq, Repr

/-- app/models/holding.py : one (fund, ticker) holding row. -/
structure Holding where
  fundId : Nat
  ticker : String
  shares : Int
deriving DecidableEq, Repr

/-- app/models/holding.py : HoldingStaging, one staged row keyed by (fund, ticker, trade). -/
structure StagingHolding where
  fundId : Nat
  ticker : String
  tradeId : Nat
  shares : Int
deriving DecidableEq, Repr

/-- app/models/trade.py : a trade with its priced snapshot.  `price` and
`totalValue` are nullable columns filled in by `calculate_trade_value`. -/
structure Trade where
  tradeId : Nat
  fundId : Nat
  ticker : String
  direction : TradeDirection
  shares : Int
  price : Option ℚ
  totalValue : Option ℚ
  status : TradeStatus
deriving DecidableEq, Repr

/-- app/models/alert.py : the alert row as the registry sees it. -/
structure AlertRec where
  alertId : Nat
  status : AlertStatus
  overrideReason : Option String
deriving DecidableEq, Repr

/-- The securities/issuers attributes reachable from a ticker through the
`INNER JOIN securities ... INNER JOIN issuers` used by the compliance
queries; `none` when the join finds no row. -/
structure SecurityInfo where
  name : String
  issuerName : String
  gicsSector : String
  sharesOutstanding : Option Int
deriving DecidableEq, Repr

/-- app/models/rule.py : the fields of a rule the engine reads. -/
structure Rule where
  ruleId : Nat
  ruleName : String
  denominator : DenominatorType
  alertIf : AlertIf
  alertLevel : ℚ
  alertMessage : String
deriving DecidableEq, Repr

/-- One row of the joined select used by `get_selected_holdings` and
`_calculate_standard_numerator`: staged holding joined with its latest
price, security and issuer. -/
structure JoinedRow where
  ticker : String
  shares : Int
  price : ℚ
  marketValue : ℚ
  securityName : String
  issuerName : String
  gicsSector : String
deriving DecidableEq, Repr

/-- A rule's processed filter logic.  `text` is the literal string the
engine passes around (the for-each path only ever inspects the string);
`eval` is the outcome of executing it as SQL against one joined row:
`.ok p` when the query runs and selects by the predicate `p`, `.error e`
when `db.session.execute` raises. -/
structure RuleLogic where
  text : String
  eval : Except String (JoinedRow → Bool)

/-- One row of `get_holdings_for_fe_calculation` (staged holding joined
with securities only). -/
structure FEHolding where
  ticker : String
  shares : Int
  sharesOutstanding : Option Int
deriving DecidableEq, Repr

/-- One entry of `calculate_fe_numerators`. -/
structure FEResult where
  ticker : String
  shares : Int
  sharesOutstanding : Int
  percentage : ℚ
deriving DecidableEq, Repr

/-- A selected-holdings entry in a rule result: the standard/prohibit
paths attach joined rows, the for-each path attaches per-ticker
percentage rows. -/
inductive SelectedRow
  | joined (r : JoinedRow)
  | fe (r : FEResult)
deriving DecidableEq, Repr

/-- The dictionary a rule execution returns
(`compliance_engine.py`): `error = some msg` models the result dicts that
carry an `error` key and omit the percentage/holdings keys. -/
structure RuleResult where
  ruleId : Nat
  ruleName : String
  alerted : Bool
  calculatedPercentage : Option ℚ
  selectedHoldings : List SelectedRow
  error : Option String
deriving DecidableEq, Repr

/-- Outcomes of `TradeValidator._validate_buy_trade`.  `tradeValueMissing`
is the `if not trade.total_value` branch (taken for a null and for a zero
total, since `Decimal(0)` is falsy); `insufficientCash` quotes the
shortfall and the floor of cash/price from the error message. -/
inductive BuyValidation
  | tradeValueMissing
  | insufficientCash (shortfall : ℚ) (maxShares : Int)
  | zeroCashNotAllowed
  | valid
deriving DecidableEq, Repr

/-- Replace the first element satisfying `p` (SQLAlchemy: mutate the row
returned by `query.first()`). -/
def updateFirst (p : α → Bool) (f : α → α) : List α → List α
  | [] => []
  | x :: xs => if p x then f x :: xs else x :: updateFirst p f xs

/-- Remove the first element satisfying `p` (SQLAlchemy: `session.delete`
of the row returned by `query.first()`). -/
def eraseFirstP (p : α → Bool) : List α → List α
  | [] => []
  | x :: xs => if p x then xs else x :: eraseFirstP p xs

theorem find?_updateFirst (p : α → Bool) (f : α → α)
    (hf : ∀ a, p a = true → p (f a) = true) :
    ∀ l : List α, (updateFirst p f l).find? p = (l.find? p).map f := by
  intro l
  induction l with
  | nil => rfl
  | cons x xs ih =>
    by_cases hx : p x = true
    · simp [updateFirst, hx, List.find?_cons_of_pos, hf x hx]
    · have hx' : p x = false := by simpa using hx
      simp [updateFirst, hx', List.find?_cons_of_neg, ih]

theorem find?_eraseFirstP_of_countP_le_one (p : α → Bool) :
    ∀ l : List α, l.countP p ≤ 1 → (eraseFirstP p l).find? p = none := by
  intro l
  induction l with
  | nil => intro _; rfl
  | cons x xs ih =>
    intro hc
    by_cases hx : p x = true
    · have hxs : xs.countP p = 0 := by
        have := hc
        rw [List.countP_cons, if_pos hx] at this
        omega
      have : ∀ a ∈ xs, ¬ p a = true := by
        intro a ha hpa
        have := List.countP_eq_zero.mp hxs a ha
        exact this hpa
      simp [eraseFirstP, hx, List.find?_eq_none]
      intro a ha
      simpa using this a ha
    · have hx' : p x = false := by simpa using hx
      have hc' : xs.countP p ≤ 1 := by
        rw [List.countP_cons, if_neg hx] at hc
        omega
      simp [eraseFirstP, hx', List.find?_cons_of_neg, ih hc']

theorem find?_append_of_none (p : α → Bool) (l l' : List α)
    (h : l.find? p = none) : (l ++ l').find? p = l'.find? p := by
  induction l with
  | nil => rfl
  | cons x xs ih =>
    have hx : p x = false := by
      by_contra hx
      have hx' : p x = true := by simpa using hx
      simp [List.find?_cons_of_pos, hx'] at h
    rw [List.find?_cons_of_neg _ (by simp [hx])] at h
    simpa [List.cons_append, List.find?_cons_of_neg, hx] using ih h

/-- The persisted state the compliance pipeline reads and writes.
`latestPrice` stands for the `MAX(price_date)` correlated subquery over
`securities_price` (returning `none` when the ticker has no price row)
and `securities` for the `securities INNER JOIN issuers` lookup. -/
structure DB where
  funds : List Fund
  holdings : List Holding
  staging : List StagingHolding
  latestPrice : String → Option ℚ
  securities : String → Option SecurityInfo

/-- The key predicate of `filter_by(fund_id=..., trade_id=...)` on the
staging table. -/
def stagingScope (fundId tradeId : Nat) (h : StagingHolding) : Bool :=
  h.fundId == fundId && h.tradeId == tradeId

/-- The key predicate of `filter_by(fund_id=..., ticker=..., trade_id=...)`. -/
def stagingMatch (t : Trade) (h : StagingHolding) : Bool :=
  h.fundId == t.fundId && h.ticker == t.ticker && h.tradeId == t.tradeId

/-- The key predicate of `filter_by(fund_id=..., ticker=...)` on holdings. -/
def holdingMatch (fundId : Nat) (ticker : String) (h : Holding) : Bool :=
  h.fundId == fundId && h.ticker == ticker

/-- Observation: shares of the staged row `query.first()` would return for
a (fund, ticker, trade) key. -/
def stagedSharesAt (db : DB) (fundId : Nat) (ticker : String) (tradeId : Nat) : Option Int :=
  (db.staging.find? (fun h => h.fundId == fundId && h.ticker == ticker && h.tradeId == tradeId)).map
    (fun h => h.shares)

/-- Observation: shares of the holding row for (fund, ticker). -/
def holdingSharesAt (db : DB) (fundId : Nat) (ticker : String) : Option Int :=
  (db.holdings.find? (holdingMatch fundId ticker)).map (fun h => h.shares)

/-- Observation: a fund's cash balance. -/
def fundCash (db : DB) (fundId : Nat) : Option ℚ :=
  (db.funds.find? (fun f => f.fundId == fundId)).map (fun f => f.cash)

/-- holdings_service.py : HoldingsService.copy_holdings_to_staging.
Deletes every staged row of the (fund, trade) scope, then inserts a copy
of each holding of the fund. -/
def copyHoldingsToStaging (db : DB) (fundId tradeId : Nat) : DB :=
  let cleared := db.staging.filter (fun h => !(stagingScope fundId tradeId h))
  let copies := (db.holdings.filter (fun h => h.fundId == fundId)).map
    (fun h => StagingHolding.mk fundId h.ticker tradeId h.shares)
  { db with staging := cleared ++ copies }

/-- holdings_service.py : HoldingsService.apply_trade_to_staging.
`none` models the `return False` of the SELL-with-no-staged-row branch;
the exception paths cannot arise in the pure model. -/
def applyTradeToStaging (db : DB) (t : Trade) : Option DB :=
  match t.direction with
  | TradeDirection.buy =>
    match db.staging.find? (stagingMatch t) with
    | some _ =>
      let staged := updateFirst (stagingMatch t) (fun h => { h with shares := h.shares + t.shares }) db.staging
      some { db with staging := staged }
    | none =>
      some { db with staging := db.staging ++ [StagingHolding.mk t.fundId t.ticker t.tradeId t.shares] }
  | TradeDirection.sell =>
    match db.staging.find? (stagingMatch t) with
    | some row =>
      let newShares := row.shares - t.shares
      if newShares ≤ 0 then
        some { db with staging := eraseFirstP (stagingMatch t) db.staging }
      else
        let staged := updateFirst (stagingMatch t) (fun h => { h with shares := newShares }) db.staging
        some { db with staging := staged }
    | none => none

/-- holdings_service.py : HoldingsService.apply_staging_to_holdings.
For each staged row of the trade's scope the holding with that ticker is
set to the staged shares (or inserted); then the scope is deleted.
Holdings whose staged row was deleted are never touched. -/
def setHoldingFromStaging (fundId : Nat) (ticker : String) (shares : Int)
    (hs : List Holding) : List Holding :=
  match hs.find? (holdingMatch fundId ticker) with
  | some _ => updateFirst (holdingMatch fundId ticker) (fun h => { h with shares := shares }) hs
  | none => hs ++ [Holding.mk fundId ticker shares]

def applyStagingToHoldings (db : DB) (t : Trade) : DB :=
  let rows := db.staging.filter (stagingScope t.fundId t.tradeId)
  let holdings := rows.foldl (fun hs r => setHoldingFromStaging t.fundId r.ticker r.shares hs) db.holdings
  let staging := db.staging.filter (fun h => !(stagingScope t.fundId t.tradeId h))
  { db with holdings := holdings, staging := staging }

/-- holdings_service.py : HoldingsService.get_staging_holdings_for_trade
(a pure read). -/
def getStagingHoldingsForTrade (db : DB) (fundId tradeId : Nat) : List StagingHolding :=
  db.staging.filter (stagingScope fundId tradeId)

/-- trade_executor.py : TradeExecutor._update_fund_cash.  `none` is
`return False`: total value null or zero (`if not trade.total_value`), or
fund not found.  BUY subtracts the snapshot total value, SELL adds it. -/
def updateFundCash (db : DB) (t : Trade) : Option DB :=
  match t.totalValue with
  | none => none
  | some tv =>
    if tv = 0 then none
    else
      match db.funds.find? (fun f => f.fundId == t.fundId) with
      | none => none
      | some _ =>
        match t.direction with
        | TradeDirection.buy =>
          let funds := updateFirst (fun f => f.fundId == t.fundId) (fun f => { f with cash := f.cash - tv }) db.funds
          some { db with funds := funds }
        | TradeDirection.sell =>
          let funds := updateFirst (fun f => f.fundId == t.fundId) (fun f => { f with cash := f.cash + tv }) db.funds
          some { db with funds := funds }

/-- trade_executor.py : TradeExecutor.execute_trade.  Applies staging to
holdings, then updates cash, then marks the trade PROCESSED.  When the
cash update fails the staging has already been applied and committed and
the function reports failure with the status unchanged. -/
def executeTrade (db : DB) (t : Trade) : DB × Trade × Bool :=
  let db1 := applyStagingToHoldings db t
  match updateFundCash db1 t with
  | none => (db1, t, false)
  | some db2 => (db2, { t with status := TradeStatus.processed }, true)

/-- trade_executor.py : TradeExecutor.cancel_trade.  The staging
"clean-up" is a call to `get_staging_holdings_for_trade`, a pure read
whose result is discarded; the staged rows are left in place and only the
trade status changes. -/
def cancelTradeExec (db : DB) (t : Trade) : DB × Trade × Bool :=
  let _stagingRead := getStagingHoldingsForTrade db t.fundId t.tradeId
  (db, { t with status := TradeStatus.cancelled }, true)

/-- trade_validator.py : TradeValidator._validate_buy_trade, branch by
branch: falsy total value, insufficient cash (with shortfall and
`int(fund.cash / trade.price)` share cap from the message), the
zero-cash refusal, then success. -/
def validateBuyTrade (cash : ℚ) (totalValue : Option ℚ) (price : ℚ) : BuyValidation :=
  match totalValue with
  | none => BuyValidation.tradeValueMissing
  | some tv =>
    if tv = 0 then BuyValidation.tradeValueMissing
    else if cash < tv then BuyValidation.insufficientCash (tv - cash) ⌊cash / price⌋
    else if cash = 0 then BuyValidation.zeroCashNotAllowed
    else BuyValidation.valid

/-- The FROM clause the compliance queries share: the actual holdings of
the fund when `trade_id = 0` (portfolio compliance), the staged holdings
of (fund, trade) otherwise.  Each row is (ticker, shares). -/
def rowsFor (db : DB) (fundId tradeId : Nat) : List (String × Int) :=
  if tradeId = 0 then
    (db.holdings.filter (fun h => h.fundId == fundId)).map (fun h => (h.ticker, h.shares))
  else
    (db.staging.filter (stagingScope fundId tradeId)).map (fun h => (h.ticker, h.shares))

/-- denominator_calculator.py : DenominatorCalculator._calculate_holdings_market_value.
The `INNER JOIN` on the latest-price subquery silently drops every row
whose ticker has no price; the survivors contribute `shares * price`.
The query itself cannot fail in the pure model, so the result is always
`some`. -/
def calculateHoldingsMarketValue (db : DB) (fundId tradeId : Nat) : Option ℚ :=
  some (((rowsFor db fundId tradeId).filterMap
    (fun r => (db.latestPrice r.1).map (fun p => (r.2 : ℚ) * p))).sum)

/-- denominator_calculator.py : DenominatorCalculator.calculate_denominator. -/
def calculateDenominator (db : DB) (fundId tradeId : Nat) (dt : DenominatorType) : Option ℚ :=
  match dt with
  | DenominatorType.totalAssets =>
    match db.funds.find? (fun f => f.fundId == fundId) with
    | none => none
    | some fund =>
      match calculateHoldingsMarketValue db fundId tradeId with
      | none => none
      | some hv => some (hv + fund.cash)
  | DenominatorType.netAssets =>
    match db.funds.find? (fun f => f.fundId == fundId) with
    | none => none
    | some fund =>
      match calculateHoldingsMarketValue db fundId tradeId with
      | none => none
      | some hv => some (hv + fund.cash)
  | DenominatorType.totalAssetsExCash => calculateHoldingsMarketValue db fundId tradeId
  | DenominatorType.prohibit => some 1
  | DenominatorType.sharesOutstandingFe => some 1

/-- The joined rows of the selected-holdings / numerator queries: staged
(or actual) holdings `INNER JOIN` latest price `INNER JOIN` securities
`INNER JOIN` issuers; rows missing a price or a security record are
dropped by the joins. -/
def joinedRows (db : DB) (fundId tradeId : Nat) : List JoinedRow :=
  (rowsFor db fundId tradeId).filterMap (fun r =>
    match db.latestPrice r.1, db.securities r.1 with
    | some p, some sec =>
      some (JoinedRow.mk r.1 r.2 p ((r.2 : ℚ) * p) sec.name sec.issuerName sec.gicsSector)
    | _, _ => none)

/-- numerator_calculator.py : NumeratorCalculator._calculate_standard_numerator.
The rule logic is appended to the query; when its execution raises, the
`except` clause returns `None`, otherwise the market values of the
selected rows are summed. -/
def calculateStandardNumerator (db : DB) (fundId tradeId : Nat) (logic : RuleLogic) : Option ℚ :=
  match logic.eval with
  | Except.error _ => none
  | Except.ok sel => some ((((joinedRows db fundId tradeId).filter sel).map (fun r => r.marketValue)).sum)

/-- numerator_calculator.py : NumeratorCalculator.get_selected_holdings.
Identical query, but the `except` clause swallows the exception and
returns the empty list. -/
def getSelectedHoldings (db : DB) (fundId tradeId : Nat) (logic : RuleLogic) : List JoinedRow :=
  match logic.eval with
  | Except.error _ => []
  | Except.ok sel => (joinedRows db fundId tradeId).filter sel

/-- denominator_calculator.py : DenominatorCalculator.get_holdings_for_fe_calculation
(staged or actual holdings `INNER JOIN securities`; no price join). -/
def getHoldingsForFeCalculation (db : DB) (fundId tradeId : Nat) : List FEHolding :=
  (rowsFor db fundId tradeId).filterMap (fun r =>
    (db.securities r.1).map (fun sec => FEHolding.mk r.1 r.2 sec.sharesOutstanding))

/-- numerator_calculator.py : NumeratorCalculator._filter_holdings_by_logic.
The source returns the unfiltered holdings in both branches: the trivial
branch (empty logic or "1=1") returns them, and the non-trivial branch is
the "simplified implementation" comment followed by `return holdings`. -/
def filterHoldingsByLogic (holdings : List FEHolding) (ruleLogic : String) : List FEHolding :=
  if ruleLogic = "" ∨ ruleLogic.trim = "1=1" then holdings
  else holdings

/-- numerator_calculator.py : NumeratorCalculator.calculate_fe_numerators.
Rows with null or non-positive shares outstanding are skipped (logged as
missing data); the rest get `shares / shares_outstanding * 100`. -/
def calculateFeNumerators (db : DB) (fundId tradeId : Nat) (logicText : String) : List FEResult :=
  let holdings := getHoldingsForFeCalculation db fundId tradeId
  if holdings = [] then []
  else
    let filtered := filterHoldingsByLogic holdings logicText
    filtered.filterMap (fun h =>
      match h.sharesOutstanding with
      | some so =>
        if 0 < so then some (FEResult.mk h.ticker h.shares so ((h.shares : ℚ) / (so : ℚ) * 100))
        else none
      | none => none)

/-- The alert-direction comparison, written identically at the two code
sites (`_execute_standard_rule` lines 216-221 and `_execute_fe_rule`
lines 136-140): ABOVE fires on `percentage >= level`, BELOW on
`percentage <= level`, both inclusive. -/
def shouldAlertCheck (alertIf : AlertIf) (percentage alertLevel : ℚ) : Bool :=
  if alertIf = AlertIf.above ∧ alertLevel ≤ percentage then true
  else if alertIf = AlertIf.below ∧ percentage ≤ alertLevel then true
  else false

/-- compliance_engine.py : ComplianceEngine._execute_prohibit_rule. -/
def executeProhibitRule (db : DB) (fundId tradeId : Nat) (rule : Rule) (logic : RuleLogic) : RuleResult :=
  let selected := getSelectedHoldings db fundId tradeId logic
  if selected ≠ [] then
    RuleResult.mk rule.ruleId rule.ruleName true none (selected.map SelectedRow.joined) none
  else
    RuleResult.mk rule.ruleId rule.ruleName false none [] none

/-- compliance_engine.py : ComplianceEngine._execute_fe_rule. -/
def executeFeRule (db : DB) (fundId tradeId : Nat) (rule : Rule) (logicText : String) : RuleResult :=
  let feResults := calculateFeNumerators db fundId tradeId logicText
  if feResults = [] then
    RuleResult.mk rule.ruleId rule.ruleName false none [] none
  else
    let alertedHoldings := feResults.filter (fun r => shouldAlertCheck rule.alertIf r.percentage rule.alertLevel)
    if alertedHoldings ≠ [] then
      RuleResult.mk rule.ruleId rule.ruleName true none (alertedHoldings.map SelectedRow.fe) none
    else
      RuleResult.mk rule.ruleId rule.ruleName false none [] none

/-- compliance_engine.py : ComplianceEngine._execute_standard_rule.
A null or zero denominator and a null numerator each yield an error
result; otherwise the percentage is compared with `shouldAlertCheck`. -/
def executeStandardRule (db : DB) (fundId tradeId : Nat) (rule : Rule) (logic : RuleLogic) : RuleResult :=
  match calculateDenominator db fundId tradeId rule.denominator with
  | none =>
    RuleResult.mk rule.ruleId rule.ruleName false none [] (some "Failed to calculate denominator")
  | some d =>
    if d = 0 then
      RuleResult.mk rule.ruleId rule.ruleName false none [] (some "Failed to calculate denominator")
    else
      match calculateStandardNumerator db fundId tradeId logic with
      | none =>
        RuleResult.mk rule.ruleId rule.ruleName false none [] (some "Failed to calculate numerator")
      | some n =>
        let percentage := n / d * 100
        let alerted := shouldAlertCheck rule.alertIf percentage rule.alertLevel
        let selected := getSelectedHoldings db fundId tradeId logic
        RuleResult.mk rule.ruleId rule.ruleName alerted (some percentage) (selected.map SelectedRow.joined) none

/-- compliance_engine.py : ComplianceEngine.execute_rule dispatch. -/
def executeRule (db : DB) (fundId tradeId : Nat) (rule : Rule) (logic : RuleLogic) : RuleResult :=
  if rule.denominator = DenominatorType.prohibit then
    executeProhibitRule db fundId tradeId rule logic
  else if rule.denominator = DenominatorType.sharesOutstandingFe then
    executeFeRule db fundId tradeId rule logic.text
  else
    executeStandardRule db fundId tradeId rule logic

/-- portfolio_compliance.py : PortfolioComplianceService.run_portfolio_compliance
restricted to its database effect: holdings are copied into the
(fund, 0) staging scope, the rules are executed (reads only), and the
"clean up" step is a `get_staging_holdings_for_trade` read whose result
is discarded, so the scope is left populated. -/
def runPortfolioCompliance (db : DB) (fundId : Nat) (rules : List (Rule × RuleLogic)) :
    DB × List RuleResult × Bool :=
  match db.funds.find? (fun f => f.fundId == fundId) with
  | none => (db, [], false)
  | some _ =>
    let db1 := copyHoldingsToStaging db fundId 0
    let results := rules.map (fun rl => executeRule db1 fundId 0 rl.1 rl.2)
    let _stagingRead := getStagingHoldingsForTrade db1 fundId 0
    (db1, results, true)

/-- app/models/alert.py : Alert.override — unconditionally sets the
status to OVERRIDDEN and replaces override_reason. -/
def alertOverride (a : AlertRec) (reason : String) : AlertRec :=
  { a with status := AlertStatus.overridden, overrideReason := some reason }

/-- app/models/alert.py : Alert.cancel. -/
def alertCancel (a : AlertRec) : AlertRec :=
  { a with status := AlertStatus.cancelled }

/-- alert_service.py : AlertService.override_alert over the alerts table:
looks the alert up by id (False when absent) and calls `Alert.override`,
with no check of the current status. -/
def overrideAlertService (alerts : List AlertRec) (alertId : Nat) (reason : String) :
    List AlertRec × Bool :=
  match alerts.find? (fun a => a.alertId == alertId) with
  | none => (alerts, false)
  | some _ =>
    (updateFirst (fun a => a.alertId == alertId) (fun a => alertOverride a reason) alerts, true)

/-- The status-and-alerts projection of one trade, the state on which the
orchestration in `app/api/trades.py` and
`trade_compliance.py` acts.  `alerts` are the alert rows whose trade_id
is this trade's id. -/
structure TradeFlowState where
  status : TradeStatus
  alerts : List AlertRec
deriving DecidableEq, Repr

/-- After a successful `process_trade_flow` the trade is in COMPLIANCE
and, being freshly created, owns no alerts. -/
def initialTradeState : TradeFlowState := TradeFlowState.mk TradeStatus.compliance []

/-- trade_compliance.py : TradeComplianceService.check_trade_compliance,
projected on status and alerts.  `newAlertIds` are the ids of the alert
rows `create_alert_from_result` inserts, each created PENDING; with at
least one alert the trade moves to ALERT, with none it stays in
COMPLIANCE. -/
def checkTradeCompliance (s : TradeFlowState) (newAlertIds : List Nat) : TradeFlowState :=
  if newAlertIds = [] then
    { s with status := TradeStatus.compliance }
  else
    TradeFlowState.mk TradeStatus.alert
      (s.alerts ++ newAlertIds.map (fun i => AlertRec.mk i AlertStatus.pending none))

/-- The override loop of `override_trade_alerts`: each pending alert
whose id has a reason in the mapping gets `Alert.override`; the others
are untouched. -/
def overrideApplied (alerts : List AlertRec) (reasons : Nat → Option String) : List AlertRec :=
  alerts.map (fun a =>
    if a.status = AlertStatus.pending then
      match reasons a.alertId with
      | some r => alertOverride a r
      | none => a
    else a)

/-- The pending alerts `override_trade_alerts` queries. -/
def pendingAlerts (alerts : List AlertRec) : List AlertRec :=
  alerts.filter (fun a => a.status = AlertStatus.pending)

/-- trade_compliance.py : TradeComplianceService.override_trade_alerts.
Refused unless the trade is in ALERT with at least one pending alert;
each pending alert whose id has a reason in the mapping is overridden;
the trade advances to COMPLIANCE (success) exactly when the overridden
count equals the pending count, and otherwise keeps its partial
overrides with status unchanged. -/
def overrideTradeAlerts (s : TradeFlowState) (reasons : Nat → Option String) :
    TradeFlowState × Bool :=
  if s.status ≠ TradeStatus.alert then (s, false)
  else if pendingAlerts s.alerts = [] then (s, false)
  else if ((pendingAlerts s.alerts).filter (fun a => (reasons a.alertId).isSome)).length =
      (pendingAlerts s.alerts).length then
    (TradeFlowState.mk TradeStatus.compliance (overrideApplied s.alerts reasons), true)
  else
    ({ s with alerts := overrideApplied s.alerts reasons }, false)

/-- trade_compliance.py : TradeComplianceService.cancel_trade_alerts:
every pending alert is cancelled and the trade moves to CANCELLED. -/
def cancelTradeAlerts (s : TradeFlowState) : TradeFlowState :=
  TradeFlowState.mk TradeStatus.cancelled
    (s.alerts.map (fun a => if a.status = AlertStatus.pending then alertCancel a else a))

/-- app/api/trades.py : create_trade, compliance half: run the compliance
check, and when it produced no alerts call `TradeExecutor.execute_trade`
(`execOk` is its success flag; on failure the status is unchanged). -/
def complianceAndExecute (s : TradeFlowState) (newAlertIds : List Nat) (execOk : Bool) :
    TradeFlowState :=
  if newAlertIds = [] then
    (if execOk then { checkTradeCompliance s newAlertIds with status := TradeStatus.processed }
     else checkTradeCompliance s newAlertIds)
  else checkTradeCompliance s newAlertIds

/-- app/api/trades.py : override_trade: run `override_trade_alerts` and,
when it succeeds with the trade back in COMPLIANCE, execute the trade. -/
def overrideAndExecute (s : TradeFlowState) (reasons : Nat → Option String) (execOk : Bool) :
    TradeFlowState :=
  if (overrideTradeAlerts s reasons).2 = true ∧
      (overrideTradeAlerts s reasons).1.status = TradeStatus.compliance then
    (if execOk then { (overrideTradeAlerts s reasons).1 with status := TradeStatus.processed }
     else (overrideTradeAlerts s reasons).1)
  else (overrideTradeAlerts s reasons).1

/-- The trade-handling step relation: the compliance check (create_trade),
an override attempt, and a cancellation, as the API exposes them. -/
inductive TradeStep : TradeFlowState → TradeFlowState → Prop
  | runCompliance (s : TradeFlowState) (newAlertIds : List Nat) (execOk : Bool)
      (h : s.status = TradeStatus.compliance) :
      TradeStep s (complianceAndExecute s newAlertIds execOk)
  | override (s : TradeFlowState) (reasons : Nat → Option String) (execOk : Bool) :
      TradeStep s (overrideAndExecute s reasons execOk)
  | cancel (s : TradeFlowState) :
      TradeStep s (cancelTradeAlerts s)

/-- Reachability from the freshly validated trade. -/
def TradeReachable (s : TradeFlowState) : Prop :=
  Relation.ReflTransGen TradeStep initialTradeState s

/-- The inductive invariant: in COMPLIANCE or PROCESSED the trade owns no
pending alert. -/
def NoPendingWhenSettled (s : TradeFlowState) : Prop :=
  (s.status = TradeStatus.compliance ∨ s.status = TradeStatus.processed) →
    ∀ a ∈ s.alerts, a.status ≠ AlertStatus.pending

theorem shouldAlertCheck_above_iff (p t : ℚ) :
    shouldAlertCheck AlertIf.above p t = true ↔ t ≤ p := by
  by_cases h : t ≤ p <;> simp [shouldAlertCheck, h]

theorem shouldAlertCheck_below_iff (p t : ℚ) :
    shouldAlertCheck AlertIf.below p t = true ↔ p ≤ t := by
  by_cases h : p ≤ t <;> simp [shouldAlertCheck, h]

theorem shouldAlertCheck_iff (ai : AlertIf) (p t : ℚ) :
    shouldAlertCheck ai p t = true ↔
      (ai = AlertIf.above ∧ t ≤ p) ∨ (ai = AlertIf.below ∧ p ≤ t) := by
  cases ai
  · rw [shouldAlertCheck_above_iff]; simp
  · rw [shouldAlertCheck_below_iff]; simp

/-- C10: for a BUY trade whose total value is positive, the zero-cash
branch of `_validate_buy_trade` is unreachable: with `fund.cash = 0` the
insufficient-cash branch returns first, so the "Trading cash is not
allowed" outcome can never be produced. -/
theorem c10_zero_cash_branch_unreachable (cash tv price : ℚ) (htv : 0 < tv) :
    validateBuyTrade cash (some tv) price ≠ BuyValidation.zeroCashNotAllowed := by
  show (if tv = 0 then BuyValidation.tradeValueMissing
    else if cash < tv then BuyValidation.insufficientCash (tv - cash) ⌊cash / price⌋
    else if cash = 0 then BuyValidation.zeroCashNotAllowed else BuyValidation.valid) ≠
      BuyValidation.zeroCashNotAllowed
  rw [if_neg (ne_of_gt htv)]
  by_cases hc : cash < tv
  · rw [if_pos hc]; simp
  · rw [if_neg hc]
    have hc0 : ¬ cash = 0 := by
      intro h
      exact hc (h ▸ htv)
    rw [if_neg hc0]
    simp

/-- Witness for C10 at cash 0 and total value 10. -/
theorem c10_zero_cash_branch_unreachable_witness :
    (0 : ℚ) < 10 ∧ validateBuyTrade 0 (some 10) 2 ≠ BuyValidation.zeroCashNotAllowed :=
  ⟨by norm_num, c10_zero_cash_branch_unreachable 0 10 2 (by norm_num)⟩

/-- C9: when the filter-selection query of a prohibit rule raises,
`get_selected_holdings` swallows the exception and returns the empty
list, so `_execute_prohibit_rule` reports a clean pass: alerted false and
no error field. -/
theorem c9_prohibit_swallows_query_error (db : DB) (fundId tradeId : Nat) (rule : Rule)
    (logic : RuleLogic) (e : String) (heval : logic.eval = Except.error e) :
    getSelectedHoldings db fundId tradeId logic = [] ∧
    (executeProhibitRule db fundId tradeId rule logic).alerted = false ∧
    (executeProhibitRule db fundId tradeId rule logic).error = none := by
  have hsel : getSelectedHoldings db fundId tradeId logic = [] := by
    unfold getSelectedHoldings
    rw [heval]
  refine ⟨hsel, ?_, ?_⟩ <;>
    · unfold executeProhibitRule
      rw [hsel]
      simp

/-- An empty database for concrete witnesses. -/
def dbEmpty : DB := DB.mk [] [] [] (fun _ => none) (fun _ => none)

/-- A filter whose SQL execution raises. -/
def badLogic : RuleLogic := RuleLogic.mk "MALFORMED FILTER ((" (Except.error "syntax error")

/-- A prohibit rule for witnesses. -/
def ruleProhibit : Rule :=
  Rule.mk 1 "no sanctioned issuers" DenominatorType.prohibit AlertIf.above 0 "prohibited holding"

/-- Witness for C9 on an erroring filter. -/
theorem c9_prohibit_swallows_query_error_witness :
    badLogic.eval = Except.error "syntax error" ∧
    (executeProhibitRule dbEmpty 1 7 ruleProhibit badLogic).alerted = false ∧
    (executeProhibitRule dbEmpty 1 7 ruleProhibit badLogic).error = none :=
  ⟨rfl, (c9_prohibit_swallows_query_error dbEmpty 1 7 ruleProhibit badLogic "syntax error" rfl).2⟩

/-- C7 counterexample: overriding a pending alert with one reason and
then overriding again with a second reason is not refused — the second
call returns success and the stored reason becomes the second one. -/
theorem c7_counterexample_second_override_succeeds :
    (overrideAlertService [AlertRec.mk 1 AlertStatus.pending none] 1 "risk-approved").1 =
      [AlertRec.mk 1 AlertStatus.overridden (some "risk-approved")] ∧
    overrideAlertService [AlertRec.mk 1 AlertStatus.overridden (some "risk-approved")] 1 "second-reason" =
      ([AlertRec.mk 1 AlertStatus.overridden (some "second-reason")], true) := by
  constructor <;> rfl

/-- C7 amended: a second override attempt on an alert is accepted like
the first: `Alert.override` runs unconditionally, so the call succeeds
and the stored reason is replaced by the new one; only the first call's
reason is lost, and the alert stays overridden. -/
theorem c7_amended_second_override_overwrites (a : AlertRec) (i : Nat) (r1 r2 : String)
    (hid : a.alertId = i) :
    (overrideAlertService [a] i r1).2 = true ∧
    overrideAlertService (overrideAlertService [a] i r1).1 i r2 =
      ([AlertRec.mk i AlertStatus.overridden (some r2)], true) := by
  subst hid
  constructor
  · simp [overrideAlertService]
  · simp [overrideAlertService, updateFirst, alertOverride]

/-- Witness for C7's amended statement. -/
theorem c7_amended_second_override_overwrites_witness :
    (overrideAlertService [AlertRec.mk 4 AlertStatus.pending none] 4 "first").2 = true ∧
    overrideAlertService (overrideAlertService [AlertRec.mk 4 AlertStatus.pending none] 4 "first").1 4 "second" =
      ([AlertRec.mk 4 AlertStatus.overridden (some "second")], true) :=
  c7_amended_second_override_overwrites (AlertRec.mk 4 AlertStatus.pending none) 4 "first" "second" rfl

/-- C4: with a well-defined non-zero denominator and a well-defined
numerator, a standard rule's alert decision is exactly the inclusive
comparison of the computed percentage with the threshold — ABOVE fires
iff percentage ≥ threshold, BELOW iff percentage ≤ threshold, and the
boundary percentage = threshold fires for both directions; a for-each
rule alerts iff some computed per-holding percentage satisfies the same
inclusive comparison. -/
theorem c4_inclusive_threshold_directions (db : DB) (fundId tradeId : Nat) (rule : Rule)
    (logic : RuleLogic) (d n : ℚ)
    (hd : calculateDenominator db fundId tradeId rule.denominator = some d)
    (hd0 : d ≠ 0)
    (hn : calculateStandardNumerator db fundId tradeId logic = some n) :
    ((rule.alertIf = AlertIf.above →
        ((executeStandardRule db fundId tradeId rule logic).alerted = true ↔
          n / d * 100 ≥ rule.alertLevel)) ∧
      (rule.alertIf = AlertIf.below →
        ((executeStandardRule db fundId tradeId rule logic).alerted = true ↔
          n / d * 100 ≤ rule.alertLevel)) ∧
      (n / d * 100 = rule.alertLevel →
        (executeStandardRule db fundId tradeId rule logic).alerted = true)) ∧
    ((executeFeRule db fundId tradeId rule logic.text).alerted = true ↔
      ∃ r ∈ calculateFeNumerators db fundId tradeId logic.text,
        (rule.alertIf = AlertIf.above ∧ rule.alertLevel ≤ r.percentage) ∨
        (rule.alertIf = AlertIf.below ∧ r.percentage ≤ rule.alertLevel)) := by
  have hstd : (executeStandardRule db fundId tradeId rule logic).alerted =
      shouldAlertCheck rule.alertIf (n / d * 100) rule.alertLevel := by
    simp only [executeStandardRule, hd, hn]
    rw [if_neg hd0]
  constructor
  · refine ⟨?_, ?_, ?_⟩
    · intro hai
      rw [hstd, hai, shouldAlertCheck_above_iff]
    · intro hai
      rw [hstd, hai, shouldAlertCheck_below_iff]
    · intro hp
      rw [hstd, shouldAlertCheck_iff]
      cases rule.alertIf
      · exact Or.inl ⟨rfl, le_of_eq hp.symm⟩
      · exact Or.inr ⟨rfl, le_of_eq hp⟩
  · unfold executeFeRule
    by_cases hfe : calculateFeNumerators db fundId tradeId logic.text = []
    · rw [if_pos hfe]
      simp [hfe]
    · rw [if_neg hfe]
      by_cases halert :
          (calculateFeNumerators db fundId tradeId logic.text).filter
            (fun r => shouldAlertCheck rule.alertIf r.percentage rule.alertLevel) = []
      · rw [if_neg (by simpa using halert)]
        simp only [List.filter_eq_nil_iff] at halert
        constructor
        · intro h
          exact absurd h (by simp)
        · rintro ⟨r, hr, hcase⟩
          exact absurd ((shouldAlertCheck_iff rule.alertIf r.percentage rule.alertLevel).mpr hcase)
            (by simpa using halert r hr)
      · rw [if_pos (by simpa using halert)]
        simp only [ne_eq, List.filter_eq_nil_iff, not_forall] at halert
        constructor
        · intro _
          obtain ⟨r, hr, hsa⟩ := halert
          exact ⟨r, hr, (shouldAlertCheck_iff rule.alertIf r.percentage rule.alertLevel).mp
            (by simpa using hsa)⟩
        · intro _
          rfl

/-- A one-staged-holding database whose total assets are 56 and whose
selected market value is 6 (percentage 75/7). -/
def dbC4 : DB :=
  DB.mk [Fund.mk 1 50] [] [StagingHolding.mk 1 "AAA" 7 3]
    (fun tk => if tk = "AAA" then some 2 else none)
    (fun tk => if tk = "AAA" then some (SecurityInfo.mk "AAA Corp" "AAA Issuer" "Tech" (some 100)) else none)

/-- A filter that matches every joined row. -/
def logicAll : RuleLogic := RuleLogic.mk "1=1" (Except.ok (fun _ => true))

/-- A total-assets rule whose threshold equals the computed percentage. -/
def ruleC4 : Rule :=
  Rule.mk 2 "sector cap" DenominatorType.totalAssets AlertIf.above (75 / 7) "over cap"

/-- Witness for C4: at the boundary percentage = threshold the ABOVE rule
fires. -/
theorem c4_inclusive_threshold_directions_witness :
    calculateDenominator dbC4 1 7 ruleC4.denominator = some 56 ∧
    (executeStandardRule dbC4 1 7 ruleC4 logicAll).alerted = true := by
  have hd : calculateDenominator dbC4 1 7 ruleC4.denominator = some 56 := by
    with_unfolding_all rfl
  have hn : calculateStandardNumerator dbC4 1 7 logicAll = some 6 := by
    with_unfolding_all rfl
  have h := c4_inclusive_threshold_directions dbC4 1 7 ruleC4 logicAll 56 6 hd (by norm_num) hn
  exact ⟨hd, (h.1.1 rfl).mpr (by norm_num [ruleC4])⟩

theorem overrideApplied_no_pending (alerts : List AlertRec) (reasons : Nat → Option String)
    (hall : ∀ b ∈ pendingAlerts alerts, (reasons b.alertId).isSome) :
    ∀ a ∈ overrideApplied alerts reasons, a.status ≠ AlertStatus.pending := by
  intro a ha
  unfold overrideApplied at ha
  rw [List.mem_map] at ha
  obtain ⟨b, hb, rfl⟩ := ha
  by_cases hbp : b.status = AlertStatus.pending
  · have hbmem : b ∈ pendingAlerts alerts := by
      unfold pendingAlerts
      rw [List.mem_filter]
      exact ⟨hb, by simp [hbp]⟩
    obtain ⟨r, hr⟩ := Option.isSome_iff_exists.mp (hall b hbmem)
    rw [if_pos hbp, hr]
    simp [alertOverride]
  · rw [if_neg hbp]
    exact hbp

theorem overrideTradeAlerts_not_alert (s : TradeFlowState) (reasons : Nat → Option String)
    (h : s.status ≠ TradeStatus.alert) :
    overrideTradeAlerts s reasons = (s, false) := by
  unfold overrideTradeAlerts
  rw [if_pos h]

theorem overrideTradeAlerts_success (s : TradeFlowState) (reasons : Nat → Option String)
    (h : (overrideTradeAlerts s reasons).2 = true) :
    (overrideTradeAlerts s reasons).1.status = TradeStatus.compliance ∧
    ∀ a ∈ (overrideTradeAlerts s reasons).1.alerts, a.status ≠ AlertStatus.pending := by
  by_cases h1 : s.status = TradeStatus.alert
  · have h1' : ¬ s.status ≠ TradeStatus.alert := fun hc => hc h1
    by_cases h2 : pendingAlerts s.alerts = []
    · unfold overrideTradeAlerts at h
      rw [if_neg h1', if_pos h2] at h
      simp at h
    · by_cases h3 : ((pendingAlerts s.alerts).filter (fun a => (reasons a.alertId).isSome)).length =
          (pendingAlerts s.alerts).length
      · unfold overrideTradeAlerts
        rw [if_neg h1', if_neg h2, if_pos h3]
        refine ⟨rfl, ?_⟩
        apply overrideApplied_no_pending
        intro b hb
        have hsub := List.filter_sublist (p := fun a => (reasons a.alertId).isSome)
          (pendingAlerts s.alerts)
        have heq := hsub.eq_of_length h3
        rw [← heq] at hb
        exact (List.mem_filter.mp hb).2
      · unfold overrideTradeAlerts at h
        rw [if_neg h1', if_neg h2, if_neg h3] at h
        simp at h
  · rw [overrideTradeAlerts_not_alert s reasons h1] at h
    simp at h

theorem overrideTradeAlerts_failure_status (s : TradeFlowState) (reasons : Nat → Option String)
    (h : (overrideTradeAlerts s reasons).2 = false) :
    (overrideTradeAlerts s reasons).1.status = s.status := by
  by_cases h1 : s.status = TradeStatus.alert
  · have h1' : ¬ s.status ≠ TradeStatus.alert := fun hc => hc h1
    by_cases h2 : pendingAlerts s.alerts = []
    · unfold overrideTradeAlerts
      rw [if_neg h1', if_pos h2]
    · by_cases h3 : ((pendingAlerts s.alerts).filter (fun a => (reasons a.alertId).isSome)).length =
          (pendingAlerts s.alerts).length
      · unfold overrideTradeAlerts at h
        rw [if_neg h1', if_neg h2, if_pos h3] at h
        simp at h
      · unfold overrideTradeAlerts
        rw [if_neg h1', if_neg h2, if_neg h3]
  · rw [overrideTradeAlerts_not_alert s reasons h1]

theorem tradeStep_preserves_noPending (s s' : TradeFlowState) (hstep : TradeStep s s')
    (hinv : NoPendingWhenSettled s) : NoPendingWhenSettled s' := by
  cases hstep with
  | runCompliance newAlertIds execOk hcompl =>
    by_cases hnew : newAlertIds = []
    · subst hnew
      intro _ a ha
      apply hinv (Or.inl hcompl) a
      revert ha
      cases execOk <;> simp [complianceAndExecute, checkTradeCompliance]
    · intro hstat a ha
      exfalso
      have hstatus : (complianceAndExecute s newAlertIds execOk).status = TradeStatus.alert := by
        simp [complianceAndExecute, checkTradeCompliance, hnew]
      rcases hstat with h | h <;> rw [hstatus] at h <;> exact TradeStatus.noConfusion h
  | override reasons execOk =>
    unfold overrideAndExecute
    by_cases hok : (overrideTradeAlerts s reasons).2 = true ∧
        (overrideTradeAlerts s reasons).1.status = TradeStatus.compliance
    · rw [if_pos hok]
      have hno := (overrideTradeAlerts_success s reasons hok.1).2
      cases execOk
      · intro _ a ha
        exact hno a ha
      · intro _ a ha
        exact hno a (by simpa using ha)
    · rw [if_neg hok]
      intro hstat a ha
      by_cases h2 : (overrideTradeAlerts s reasons).2 = true
      · exact absurd ⟨h2, (overrideTradeAlerts_success s reasons h2).1⟩ hok
      · have h2' : (overrideTradeAlerts s reasons).2 = false := by
          cases hb : (overrideTradeAlerts s reasons).2
          · rfl
          · exact absurd hb h2
        have hss := overrideTradeAlerts_failure_status s reasons h2'
        have hs_set : s.status = TradeStatus.compliance ∨ s.status = TradeStatus.processed := by
          rw [← hss]
          exact hstat
        have hne : s.status ≠ TradeStatus.alert := by
          rcases hs_set with h | h <;> rw [h] <;> exact fun hc => TradeStatus.noConfusion hc
        have hres := overrideTradeAlerts_not_alert s reasons hne
        rw [hres] at ha
        exact hinv hs_set a ha
  | cancel =>
    intro hstat a ha
    exfalso
    have hstatus : (cancelTradeAlerts s).status = TradeStatus.cancelled := rfl
    rcases hstat with h | h <;> rw [hstatus] at h <;> exact TradeStatus.noConfusion h

theorem tradeReachable_noPending (s : TradeFlowState) (h : TradeReachable s) :
    NoPendingWhenSettled s := by
  unfold TradeReachable at h
  induction h with
  | refl =>
    intro _ a ha
    simp [initialTradeState] at ha
  | tail hsteps hstep ih => exact tradeStep_preserves_noPending _ _ hstep ih

/-- C1: in every reachable state of the trade-handling step relation, a
trade in PROCESSED has no pending alert with its trade id — the API only
invokes `execute_trade` after a clean compliance run or after
`override_trade_alerts` has moved every pending alert of the trade to
overridden. -/
theorem c1_processed_implies_no_pending_alert (s : TradeFlowState)
    (hreach : TradeReachable s) (hproc : s.status = TradeStatus.processed) :
    ∀ a ∈ s.alerts, a.status ≠ AlertStatus.pending :=
  tradeReachable_noPending s hreach (Or.inr hproc)

/-- Witness for C1: the processed state reached by a clean compliance run
and successful execution. -/
theorem c1_processed_implies_no_pending_alert_witness :
    TradeReachable (TradeFlowState.mk TradeStatus.processed []) ∧
    ∀ a ∈ (TradeFlowState.mk TradeStatus.processed []).alerts,
      a.status ≠ AlertStatus.pending := by
  have hreach : TradeReachable (TradeFlowState.mk TradeStatus.processed []) := by
    have hstep := TradeStep.runCompliance initialTradeState [] true rfl
    have heq : complianceAndExecute initialTradeState [] true =
        TradeFlowState.mk TradeStatus.processed [] := rfl
    exact Relation.ReflTransGen.single (heq ▸ hstep)
  exact ⟨hreach, c1_processed_implies_no_pending_alert _ hreach rfl⟩

theorem find?_staging_copies (f tr : Nat) (tk : String) (hs : List Holding) :
    ((hs.filter (fun h => h.fundId == f)).map
        (fun h => StagingHolding.mk f h.ticker tr h.shares)).find?
      (fun h => h.fundId == f && h.ticker == tk && h.tradeId == tr) =
    (hs.find? (holdingMatch f tk)).map (fun h => StagingHolding.mk f h.ticker tr h.shares) := by
  induction hs with
  | nil => rfl
  | cons h hs ih =>
    simp only [List.filter_cons]
    by_cases hf : (h.fundId == f) = true
    · rw [if_pos hf]
      simp only [List.map_cons]
      by_cases ht : (h.ticker == tk) = true
      · rw [List.find?_cons_of_pos _ (by simp [ht]), List.find?_cons_of_pos _ (by simp [holdingMatch, hf, ht])]
        rfl
      · rw [List.find?_cons_of_neg _ (by simp [ht]), List.find?_cons_of_neg _ (by simp [holdingMatch, ht]), ih]
    · rw [if_neg hf]
      rw [List.find?_cons_of_neg _ (by simp [holdingMatch, hf]), ih]

/-- C3: the staging projection realises holdings-plus-trade-delta: after
`copy_holdings_to_staging` the staged shares of every ticker equal the
fund's holding shares; `apply_trade_to_staging` then adds the trade's
shares to an existing staged row on a BUY (inserting at trade.shares when
absent), and on a SELL deletes the staged row when the decrement reaches
zero or below, decrements it when it stays positive, and fails when no
staged row exists. -/
theorem c3_staging_projection (db : DB) (t : Trade) :
    (∀ n : Int, t.direction = TradeDirection.buy →
        stagedSharesAt db t.fundId t.ticker t.tradeId = some n →
        ∃ db2, applyTradeToStaging db t = some db2 ∧
          stagedSharesAt db2 t.fundId t.ticker t.tradeId = some (n + t.shares)) ∧
    (t.direction = TradeDirection.buy →
        stagedSharesAt db t.fundId t.ticker t.tradeId = none →
        ∃ db2, applyTradeToStaging db t = some db2 ∧
          stagedSharesAt db2 t.fundId t.ticker t.tradeId = some t.shares) ∧
    (∀ n : Int, t.direction = TradeDirection.sell →
        stagedSharesAt db t.fundId t.ticker t.tradeId = some n →
        n - t.shares ≤ 0 →
        db.staging.countP (stagingMatch t) ≤ 1 →
        ∃ db2, applyTradeToStaging db t = some db2 ∧
          stagedSharesAt db2 t.fundId t.ticker t.tradeId = none) ∧
    (∀ n : Int, t.direction = TradeDirection.sell →
        stagedSharesAt db t.fundId t.ticker t.tradeId = some n →
        0 < n - t.shares →
        ∃ db2, applyTradeToStaging db t = some db2 ∧
          stagedSharesAt db2 t.fundId t.ticker t.tradeId = some (n - t.shares)) ∧
    (t.direction = TradeDirection.sell →
        stagedSharesAt db t.fundId t.ticker t.tradeId = none →
        applyTradeToStaging db t = none) ∧
    (∀ tk : String,
        stagedSharesAt (copyHoldingsToStaging db t.fundId t.tradeId) t.fundId tk t.tradeId =
          holdingSharesAt db t.fundId tk) := by
  have hobs : stagedSharesAt db t.fundId t.ticker t.tradeId =
      (db.staging.find? (stagingMatch t)).map (fun h => h.shares) := rfl
  have hset : ∀ l : List StagingHolding,
      stagedSharesAt { db with staging := l } t.fundId t.ticker t.tradeId =
      (l.find? (stagingMatch t)).map (fun h => h.shares) := fun l => rfl
  have hkeep : ∀ sh : Int, ∀ a : StagingHolding, stagingMatch t a = true →
      stagingMatch t { a with shares := sh } = true := fun _ _ ha => ha
  refine ⟨?_, ?_, ?_, ?_, ?_, ?_⟩
  · intro n hdir hfind
    rw [hobs] at hfind
    obtain ⟨row, hrow, hsh⟩ := Option.map_eq_some'.mp hfind
    have happly : applyTradeToStaging db t =
        some { db with staging := (updateFirst (stagingMatch t)
          (fun h => { h with shares := h.shares + t.shares }) db.staging) } := by
      simp only [applyTradeToStaging, hdir, hrow]
    refine ⟨_, happly, ?_⟩
    rw [hset]
    rw [find?_updateFirst _ _ (fun a ha => hkeep _ a ha), hrow]
    simp [← hsh]
  · intro hdir hfind
    rw [hobs] at hfind
    have hnone : db.staging.find? (stagingMatch t) = none := by
      cases hcase : db.staging.find? (stagingMatch t)
      · rfl
      · rw [hcase] at hfind
        simp at hfind
    have happly : applyTradeToStaging db t =
        some { db with staging := (db.staging ++
          [StagingHolding.mk t.fundId t.ticker t.tradeId t.shares]) } := by
      simp only [applyTradeToStaging, hdir, hnone]
    refine ⟨_, happly, ?_⟩
    rw [hset]
    rw [find?_append_of_none _ _ _ hnone]
    rw [List.find?_cons_of_pos _ (by simp [stagingMatch])]
    rfl
  · intro n hdir hfind hle hcount
    rw [hobs] at hfind
    obtain ⟨row, hrow, hsh⟩ := Option.map_eq_some'.mp hfind
    have hle' : row.shares - t.shares ≤ 0 := by
      rw [hsh]
      exact hle
    have happly : applyTradeToStaging db t =
        some { db with staging := (eraseFirstP (stagingMatch t) db.staging) } := by
      simp only [applyTradeToStaging, hdir, hrow]
      rw [if_pos hle']
    refine ⟨_, happly, ?_⟩
    rw [hset]
    rw [find?_eraseFirstP_of_countP_le_one _ _ hcount]
    rfl
  · intro n hdir hfind hpos
    rw [hobs] at hfind
    obtain ⟨row, hrow, hsh⟩ := Option.map_eq_some'.mp hfind
    have hpos' : ¬ row.shares - t.shares ≤ 0 := by
      rw [hsh]
      omega
    have happly : applyTradeToStaging db t =
        some { db with staging := (updateFirst (stagingMatch t)
          (fun h => { h with shares := row.shares - t.shares }) db.staging) } := by
      simp only [applyTradeToStaging, hdir, hrow]
      rw [if_neg hpos']
    refine ⟨_, happly, ?_⟩
    rw [hset]
    rw [find?_updateFirst _ _ (fun a ha => hkeep _ a ha), hrow]
    simp [hsh]
  · intro hdir hfind
    rw [hobs] at hfind
    have hnone : db.staging.find? (stagingMatch t) = none := by
      cases hcase : db.staging.find? (stagingMatch t)
      · rfl
      · rw [hcase] at hfind
        simp at hfind
    simp only [applyTradeToStaging, hdir, hnone]
  · intro tk
    unfold stagedSharesAt holdingSharesAt copyHoldingsToStaging
    have hclear : (db.staging.filter (fun h => !(stagingScope t.fundId t.tradeId h))).find?
        (fun h => h.fundId == t.fundId && h.ticker == tk && h.tradeId == t.tradeId) = none := by
      rw [List.find?_eq_none]
      intro x hx hpx
      have hmem := List.mem_filter.mp hx
      have hscope : stagingScope t.fundId t.tradeId x = true := by
        unfold stagingScope
        simp only [Bool.and_eq_true] at hpx
        simp [hpx.1.1, hpx.2]
      rw [hscope] at hmem
      simp at hmem
    rw [find?_append_of_none _ _ _ hclear, find?_staging_copies]
    cases db.holdings.find? (holdingMatch t.fundId tk) <;> rfl

/-- A one-row staging scope about to be fully sold. -/
def dbC3 : DB := DB.mk [] [] [StagingHolding.mk 1 "T" 7 5] (fun _ => none) (fun _ => none)

/-- A SELL of the full staged position. -/
def tradeC3 : Trade := Trade.mk 7 1 "T" TradeDirection.sell 5 none none TradeStatus.compliance

/-- Witness for C3: selling the whole staged position deletes the staged
row. -/
theorem c3_staging_projection_witness :
    ∃ db2, applyTradeToStaging dbC3 tradeC3 = some db2 ∧
      stagedSharesAt db2 tradeC3.fundId tradeC3.ticker tradeC3.tradeId = none :=
  (c3_staging_projection dbC3 tradeC3).2.2.1 5 rfl (by decide) (by decide) (by decide)

/-- A fund holding 5 shares of T at price 2 with cash 100. -/
def dbC2 : DB :=
  DB.mk [Fund.mk 1 100] [Holding.mk 1 "T" 5] []
    (fun tk => if tk = "T" then some 2 else none) (fun _ => none)

/-- A SELL of the full 5-share position, priced at 2 (total value 10). -/
def tradeC2 : Trade :=
  Trade.mk 7 1 "T" TradeDirection.sell 5 (some 2) (some 10) TradeStatus.compliance

/-- C2, evaluated at the failing input: a full-position SELL stages the
deletion of the holding, but `apply_staging_to_holdings` only writes
tickers still present in staging, so after `execute_trade` commits the
trade as PROCESSED the Holding still has its pre-trade 5 shares instead
of differing by −shares; the cash side is correct (100 + 10 = 110). -/
theorem c2_full_sell_keeps_holding_row :
    holdingSharesAt dbC2 1 "T" = some 5 ∧
    applyTradeToStaging (copyHoldingsToStaging dbC2 1 7) tradeC2 = some dbC2 ∧
    executeTrade dbC2 tradeC2 =
      ({ dbC2 with funds := [Fund.mk 1 110] }, { tradeC2 with status := TradeStatus.processed }, true) ∧
    holdingSharesAt { dbC2 with funds := [Fund.mk 1 110] } 1 "T" = some 5 ∧
    fundCash { dbC2 with funds := [Fund.mk 1 110] } 1 = some 110 := by
  refine ⟨?_, ?_, ?_, ?_, ?_⟩ <;> with_unfolding_all rfl

/-- A fund holding 5 shares of T, no prices needed. -/
def dbC8 : DB :=
  DB.mk [Fund.mk 1 100] [Holding.mk 1 "T" 5] [] (fun _ => none) (fun _ => none)

/-- A BUY of 3 shares of T parked in ALERT. -/
def tradeC8 : Trade :=
  Trade.mk 7 1 "T" TradeDirection.buy 3 (some 2) (some 6) TradeStatus.alert

/-- C8, evaluated at the failing input: after staging the trade,
`cancel_trade` performs only a read of the staging scope and leaves its
rows in place (cancelled trade, staging not drained); a completed
portfolio-compliance run likewise leaves its (fund, 0) scope populated;
only the commit path (`execute_trade`) drains the scope. -/
theorem c8_cancel_and_portfolio_leave_staging :
    applyTradeToStaging (copyHoldingsToStaging dbC8 1 7) tradeC8 =
      some { dbC8 with staging := [StagingHolding.mk 1 "T" 7 8] } ∧
    cancelTradeExec { dbC8 with staging := [StagingHolding.mk 1 "T" 7 8] } tradeC8 =
      ({ dbC8 with staging := [StagingHolding.mk 1 "T" 7 8] },
        { tradeC8 with status := TradeStatus.cancelled }, true) ∧
    getStagingHoldingsForTrade
      (cancelTradeExec { dbC8 with staging := [StagingHolding.mk 1 "T" 7 8] } tradeC8).1 1 7 =
        [StagingHolding.mk 1 "T" 7 8] ∧
    getStagingHoldingsForTrade (runPortfolioCompliance dbC8 1 []).1 1 0 =
      [StagingHolding.mk 1 "T" 0 5] ∧
    (executeTrade { dbC8 with staging := [StagingHolding.mk 1 "T" 7 8] } tradeC8).1.staging = [] := by
  refine ⟨?_, ?_, ?_, ?_, ?_⟩ <;> with_unfolding_all rfl

/-- A staged holding of 50 of the 100 outstanding shares of XYZ, a
Utilities-sector issuer. -/
def dbC5 : DB :=
  DB.mk [Fund.mk 1 0] [] [StagingHolding.mk 1 "XYZ" 7 50]
    (fun _ => none)
    (fun tk => if tk = "XYZ" then some (SecurityInfo.mk "XYZ Corp" "XYZ Issuer" "Utilities" (some 100)) else none)

/-- A for-each ownership rule with an Energy-sector filter. -/
def ruleC5 : Rule :=
  Rule.mk 3 "ownership cap" DenominatorType.sharesOutstandingFe AlertIf.above 5 "over ownership cap"

/-- C5, evaluated at the failing input: `_filter_holdings_by_logic`
returns the staged holdings unfiltered for every filter text, so the
Utilities-sector holding XYZ — which does not match the rule's
Energy-sector filter — still has its ownership percentage computed and
contributes the triggering row of the alert. -/
theorem c5_fe_filter_not_applied :
    (∀ (hs : List FEHolding) (logicText : String), filterHoldingsByLogic hs logicText = hs) ∧
    getHoldingsForFeCalculation dbC5 1 7 = [FEHolding.mk "XYZ" 50 (some 100)] ∧
    (executeFeRule dbC5 1 7 ruleC5 "issuers.gics_sector = Energy").alerted = true ∧
    (executeFeRule dbC5 1 7 ruleC5 "issuers.gics_sector = Energy").selectedHoldings =
      [SelectedRow.fe (FEResult.mk "XYZ" 50 100 50)] := by
  refine ⟨?_, ?_, ?_, ?_⟩
  · intro hs logicText
    unfold filterHoldingsByLogic
    split_ifs <;> rfl
  · with_unfolding_all rfl
  · with_unfolding_all rfl
  · with_unfolding_all rfl

/-- A fund with staged holdings A (priced at 2) and B (no price on
record): total assets 3·2 + 100 cash = 106. -/
def dbC6 : DB :=
  DB.mk [Fund.mk 1 100] []
    [StagingHolding.mk 1 "A" 7 3, StagingHolding.mk 1 "B" 7 4]
    (fun tk => if tk = "A" then some 2 else none)
    (fun tk =>
      if tk = "A" then some (SecurityInfo.mk "A Corp" "A Issuer" "Tech" (some 100))
      else if tk = "B" then some (SecurityInfo.mk "B Corp" "B Issuer" "Tech" (some 100))
      else none)

/-- A total-assets exposure rule at threshold 5. -/
def ruleC6 : Rule :=
  Rule.mk 4 "exposure cap" DenominatorType.totalAssets AlertIf.above 5 "over exposure"

/-- C6 counterexample: the staged holding B has no latest price, the
denominator silently excludes it (106 instead of an error), and the
standard rule completes with no error field and an alert — the engine
does not flag the missing price and does not abort the evaluation. -/
theorem c6_counterexample_no_abort_on_missing_price :
    dbC6.latestPrice "B" = none ∧
    (dbC6.staging.map (fun h => h.ticker)).contains "B" = true ∧
    calculateDenominator dbC6 1 7 DenominatorType.totalAssets = some 106 ∧
    (executeStandardRule dbC6 1 7 ruleC6 logicAll).error = none ∧
    (executeStandardRule dbC6 1 7 ruleC6 logicAll).alerted = true := by
  refine ⟨rfl, rfl, ?_, ?_, ?_⟩ <;> with_unfolding_all rfl

theorem filterMap_filter_of_none (f : α → Option β) (p q : α → Bool)
    (h : ∀ a, q a = false → f a = none) (l : List α) :
    (l.filter (fun a => p a && q a)).filterMap f = (l.filter p).filterMap f := by
  induction l with
  | nil => rfl
  | cons x xs ih =>
    simp only [List.filter_cons]
    by_cases hq : q x = true
    · by_cases hp : p x = true
      · rw [if_pos (by simp [hp, hq]), if_pos hp]
        simp only [List.filterMap_cons]
        rw [ih]
      · rw [if_neg (by simp [hp]), if_neg hp, ih]
    · have hq' : q x = false := by simpa using hq
      by_cases hp : p x = true
      · rw [if_neg (by simp [hq']), if_pos hp]
        simp only [List.filterMap_cons, h x hq']
        rw [ih]
      · rw [if_neg (by simp [hq']), if_neg hp, ih]

/-- C6 amended: a staged holding with no latest price is silently
excluded from the denominator: removing every such row leaves the
holdings market value unchanged, no flag is raised, and the standard
rule reports an error only when the denominator is missing or zero or
the numerator query fails — never because a staged holding had no
price. -/
theorem c6_amended_missing_price_silently_excluded (db : DB) (fundId tradeId : Nat)
    (tk : String) (htr : tradeId ≠ 0) (hprice : db.latestPrice tk = none)
    (rule : Rule) (logic : RuleLogic) :
    calculateHoldingsMarketValue
        { db with staging := db.staging.filter (fun h => !(h.ticker == tk)) } fundId tradeId =
      calculateHoldingsMarketValue db fundId tradeId ∧
    ((executeStandardRule db fundId tradeId rule logic).error = none ↔
      (∃ d, calculateDenominator db fundId tradeId rule.denominator = some d ∧ ¬ d = 0) ∧
      calculateStandardNumerator db fundId tradeId logic ≠ none) := by
  constructor
  · have key : ∀ l : List StagingHolding,
        calculateHoldingsMarketValue { db with staging := l } fundId tradeId =
        some ((((l.filter (stagingScope fundId tradeId)).map (fun h => (h.ticker, h.shares))).filterMap
          (fun r => (db.latestPrice r.1).map (fun p => (r.2 : ℚ) * p))).sum) := by
      intro l
      unfold calculateHoldingsMarketValue rowsFor
      rw [if_neg htr]
    have keyDb : calculateHoldingsMarketValue db fundId tradeId =
        some ((((db.staging.filter (stagingScope fundId tradeId)).map (fun h => (h.ticker, h.shares))).filterMap
          (fun r => (db.latestPrice r.1).map (fun p => (r.2 : ℚ) * p))).sum) := by
      unfold calculateHoldingsMarketValue rowsFor
      rw [if_neg htr]
    rw [key, keyDb]
    rw [List.filter_filter]
    rw [List.filterMap_map, List.filterMap_map]
    rw [filterMap_filter_of_none _ _ _ ?hnone db.staging]
    case hnone =>
      intro a ha
      have hat : a.ticker = tk := by
        have : (a.ticker == tk) = true := by
          cases hcase : (a.ticker == tk)
          · rw [hcase] at ha
            simp at ha
          · rfl
        exact eq_of_beq this
      show (db.latestPrice a.ticker).map (fun p => ((a.shares : ℚ)) * p) = none
      rw [hat, hprice]
      rfl
  · cases hden : calculateDenominator db fundId tradeId rule.denominator with
    | none => simp [executeStandardRule, hden]
    | some d =>
      by_cases hd0 : d = 0
      · subst hd0
        simp [executeStandardRule, hden]
      · cases hnum : calculateStandardNumerator db fundId tradeId logic with
        | none => simp [executeStandardRule, hden, hnum, hd0]
        | some n => simp [executeStandardRule, hden, hnum, hd0]

/-- Witness for C6's amended statement at the concrete database with the
unpriced holding B. -/
theorem c6_amended_missing_price_silently_excluded_witness :
    calculateHoldingsMarketValue
        { dbC6 with staging := dbC6.staging.filter (fun h => !(h.ticker == "B")) } 1 7 =
      calculateHoldingsMarketValue dbC6 1 7 ∧
    ((executeStandardRule dbC6 1 7 ruleC6 logicAll).error = none ↔
      (∃ d, calculateDenominator dbC6 1 7 ruleC6.denominator = some d ∧ ¬ d = 0) ∧
      calculateStandardNumerator dbC6 1 7 logicAll ≠ none) :=
  c6_amended_missing_price_silently_excluded dbC6 1 7 "B" (by decide) rfl ruleC6 logicAll

end TC
